import Mathlib

/-!
# istio-smi-controller: translation of SMI objects into Istio objects

A shallow embedding of package `istio` (`client.go`, `api.go`, `target.go`).

* Go structs are Lean structures with the Go field names; a pointer to a struct
  that the code always allocates is the struct itself.
* A Go `map[string]string` is an association list of key/value pairs.
* A Go `error` is `Option String` (`none` is `nil`).
* A Go `int` is a mathematical integer; the conversion `int32(x)` is the
  explicit twos-complement wrap `int32`.
* A method that can panic returns `Except String _`, where `Except.error v` is
  `panic(v)`.
* The controller-runtime client is state (`scheme`, `store`) plus the behaviour
  of its writer methods (`impl`), which is arbitrary; `log` is a ghost record of
  the calls the translator issued, each with the scheme as it was at the call.
* Every translator method starts with the type assertion `r.(client.Client)` on its
  `client.Writer` argument; the methods of the model take a `client.Client`, the
  only kind of writer on which the assertion does not panic.
* `context.Context` and the logger carry no data the translation reads and are
  left out.
-/

namespace istio

/-! ## Go primitives -/

/-- A Go `error`: `none` is `nil`, `some msg` is a non-nil error with message `msg`. -/
abbrev Error := Option String

/-- The Go conversion `int32(x)` of an `int`: the low 32 bits of `x`, read as a
twos-complement number. -/
def int32 (x : Int) : Int := (x + 2147483648) % 4294967296 - 2147483648

/-- A Go `map[string]string`, as the list of its key/value pairs. -/
abbrev StringMap := List (String × String)

/-! ## Kubernetes object metadata and kinds -/

/-- The part of `metav1.ObjectMeta` that the package reads or writes. -/
structure ObjectMeta where
  Name : String
  Namespace : String
  Labels : StringMap
deriving DecidableEq

/-- The zero value of `ObjectMeta`. -/
def ObjectMeta.zero : ObjectMeta := { Name := "", Namespace := "", Labels := [] }

/-- The method `ObjectMeta.SetLabels`. -/
def ObjectMeta.SetLabels (m : ObjectMeta) (labels : StringMap) : ObjectMeta :=
  { m with Labels := labels }

/-- A `schema.GroupVersionKind`. -/
structure GroupVersionKind where
  Group : String
  Version : String
  Kind : String
deriving DecidableEq

/-- A `runtime.Scheme`, as the list of the kinds registered in it. -/
abbrev Scheme := List GroupVersionKind

/-! ## SMI source objects -/

/-- The struct `splitv1alpha4.TrafficSplitBackend`. -/
structure TrafficSplitBackend where
  Service : String
  Weight : Int
deriving DecidableEq

/-- The struct `splitv1alpha4.TrafficSplitSpec`. -/
structure TrafficSplitSpec where
  Service : String
  Backends : List TrafficSplitBackend
  Matches : List String
deriving DecidableEq

/-- The struct `splitv1alpha4.TrafficSplit`. -/
structure TrafficSplit where
  ObjectMeta : ObjectMeta
  Spec : TrafficSplitSpec
deriving DecidableEq

/-- The struct `accessv1alpha3.IdentityBindingSubject`. -/
structure IdentityBindingSubject where
  Kind : String
  Name : String
  Namespace : String
deriving DecidableEq

/-- The struct `accessv1alpha3.TrafficTargetRule`. -/
structure TrafficTargetRule where
  Kind : String
  Name : String
  Matches : List String
deriving DecidableEq

/-- The struct `accessv1alpha3.TrafficTargetSpec`. -/
structure TrafficTargetSpec where
  Destination : IdentityBindingSubject
  Sources : List IdentityBindingSubject
  Rules : List TrafficTargetRule
deriving DecidableEq

/-- The struct `accessv1alpha3.TrafficTarget`. -/
structure TrafficTarget where
  ObjectMeta : ObjectMeta
  Spec : TrafficTargetSpec
deriving DecidableEq

/-! ## Istio target objects -/

/-- The struct `networkingv1beta1.Destination`. -/
structure Destination where
  Host : String
  Subset : String
deriving DecidableEq

/-- The struct `networkingv1beta1.HTTPRouteDestination`; `Weight` is an `int32`. -/
structure HTTPRouteDestination where
  Destination : Destination
  Weight : Int
deriving DecidableEq

/-- The zero value of `HTTPRouteDestination`, with the destination it is given next. -/
def HTTPRouteDestination.zero : HTTPRouteDestination :=
  { Destination := { Host := "", Subset := "" }, Weight := 0 }

/-- The struct `networkingv1beta1.HTTPRoute`. -/
structure HTTPRoute where
  Route : List HTTPRouteDestination
deriving DecidableEq

/-- The struct `networkingv1beta1.VirtualService` (the spec of the object). -/
structure VirtualServiceSpec where
  Hosts : List String
  Http : List HTTPRoute
deriving DecidableEq

/-- The struct `v1beta1.VirtualService`. -/
structure VirtualService where
  ObjectMeta : ObjectMeta
  Spec : VirtualServiceSpec
deriving DecidableEq

/-- The zero value `v1beta1.VirtualService{}`. -/
def VirtualService.zero : VirtualService :=
  { ObjectMeta := ObjectMeta.zero, Spec := { Hosts := [], Http := [] } }

/-- The enum `securityv1beta1.AuthorizationPolicy_Action`; `ALLOW` is its zero value. -/
inductive AuthorizationPolicy_Action where
  | ALLOW
  | DENY
  | AUDIT
  | CUSTOM
deriving DecidableEq

/-- The struct `securityv1beta1.Source`. -/
structure Source where
  Principals : List String
deriving DecidableEq

/-- The struct `securityv1beta1.Rule_From`. -/
structure Rule_From where
  Source : Source
deriving DecidableEq

/-- The struct `securityv1beta1.Operation`: every list of the zero value is empty,
so it restricts nothing. -/
structure Operation where
  Hosts : List String
  Ports : List String
  Methods : List String
  Paths : List String
deriving DecidableEq

/-- The zero value `securityv1beta1.Operation{}`. -/
def Operation.zero : Operation := { Hosts := [], Ports := [], Methods := [], Paths := [] }

/-- The struct `securityv1beta1.Rule_To`. -/
structure Rule_To where
  Operation : Operation
deriving DecidableEq

/-- The struct `securityv1beta1.Rule`. -/
structure Rule where
  From : List Rule_From
  To : List Rule_To
deriving DecidableEq

/-- The struct `securityv1beta1.AuthorizationPolicy` (the spec of the object). -/
structure AuthorizationPolicySpec where
  Action : AuthorizationPolicy_Action
  Rules : List Rule
deriving DecidableEq

/-- The struct `sv1beta1.AuthorizationPolicy`. -/
structure AuthorizationPolicy where
  ObjectMeta : ObjectMeta
  Spec : AuthorizationPolicySpec
deriving DecidableEq

/-- The zero value `sv1beta1.AuthorizationPolicy{}`. -/
def AuthorizationPolicy.zero : AuthorizationPolicy :=
  { ObjectMeta := ObjectMeta.zero, Spec := { Action := .ALLOW, Rules := [] } }

/-- A `client.Object` that the package hands to the store. -/
inductive Object where
  | virtualService (vs : VirtualService)
  | authorizationPolicy (ap : AuthorizationPolicy)
deriving DecidableEq

/-- The metadata of an object. -/
def Object.meta : Object → ObjectMeta
  | .virtualService vs => vs.ObjectMeta
  | .authorizationPolicy ap => ap.ObjectMeta

/-- The kind of `v1beta1.VirtualService`, package `istio.io/client-go/pkg/apis/networking/v1beta1`. -/
def VirtualServiceKind : GroupVersionKind :=
  { Group := "networking.istio.io", Version := "v1beta1", Kind := "VirtualService" }

/-- The kind of `sv1beta1.AuthorizationPolicy`, package `istio.io/client-go/pkg/apis/security/v1beta1`. -/
def AuthorizationPolicyKind : GroupVersionKind :=
  { Group := "security.istio.io", Version := "v1beta1", Kind := "AuthorizationPolicy" }

/-- The kind of the Go type of an object. -/
def Object.kind : Object → GroupVersionKind
  | .virtualService _ => VirtualServiceKind
  | .authorizationPolicy _ => AuthorizationPolicyKind

/-! ## The controller-runtime client -/

/-- The struct `client.CreateOptions`. -/
structure client.CreateOptions where
  DryRun : List String
  FieldManager : String
deriving DecidableEq

/-- The zero value `client.CreateOptions{}`. -/
def client.CreateOptions.zero : client.CreateOptions := { DryRun := [], FieldManager := "" }

/-- A `client.DeleteAllOfOption`: the options that select what a bulk delete removes. -/
inductive client.DeleteAllOfOption where
  | MatchingLabels (labels : StringMap)
  | InNamespace (ns : String)
  | MatchingFields (fields : StringMap)
deriving DecidableEq

/-- One interaction of the translator with the client, as recorded in `client.Client.log`;
a call to the store carries the scheme as it was when the call was made. -/
inductive Event where
  | AddToScheme
  | Create (scheme : Scheme) (obj : Object) (opts : client.CreateOptions)
  | Delete (scheme : Scheme) (obj : Object)
  | DeleteAllOf (scheme : Scheme) (obj : Object) (opts : List client.DeleteAllOfOption)
deriving DecidableEq

/-- Whether an event is a call of the schema-registration function. -/
def Event.isRegistration : Event → Bool
  | .AddToScheme => true
  | _ => false

/-- Whether an event is a call to the store (create, delete or bulk delete). -/
def Event.isStoreCall : Event → Bool
  | .AddToScheme => false
  | _ => true

/-- The behaviour of the interface `client.Writer` over a store of type `σ`: each method
sees the scheme and the store and gives back an error and the new store. -/
structure client.Writer (σ : Type) where
  Create : Scheme → σ → Object → client.CreateOptions → Error × σ
  Delete : Scheme → σ → Object → Error × σ
  DeleteAllOf : Scheme → σ → Object → List client.DeleteAllOfOption → Error × σ

/-- A value of the interface `client.Client`: the writer methods, the scheme that
`Scheme()` returns, the objects behind it, and the ghost log of calls. -/
structure client.Client (σ : Type) where
  impl : client.Writer σ
  scheme : Scheme
  store : σ
  log : List Event

/-- The variable `v1beta1.SchemeGroupVersion` of package
`istio.io/client-go/pkg/apis/networking/v1beta1`, applied to a kind name. -/
def v1beta1.SchemeGroupVersion (kind : String) : GroupVersionKind :=
  { Group := "networking.istio.io", Version := "v1beta1", Kind := kind }

/-- The kinds that `addKnownTypes` of the networking package registers under
`SchemeGroupVersion`. -/
def v1beta1.knownTypes : List GroupVersionKind :=
  ["DestinationRule", "DestinationRuleList", "Gateway", "GatewayList",
   "ProxyConfig", "ProxyConfigList", "ServiceEntry", "ServiceEntryList",
   "Sidecar", "SidecarList", "VirtualService", "VirtualServiceList",
   "WorkloadEntry", "WorkloadEntryList", "WorkloadGroup", "WorkloadGroupList"].map
    v1beta1.SchemeGroupVersion

/-- The kinds that `metav1.AddToGroupVersion(scheme, SchemeGroupVersion)` registers: the
watch event under the group version and under the internal version, the option types
under the group version, and the unversioned types under version "v1" of the empty
group. -/
def v1beta1.metaTypes : List GroupVersionKind :=
  [v1beta1.SchemeGroupVersion "WatchEvent",
   { Group := "networking.istio.io", Version := "__internal", Kind := "WatchEvent" }]
  ++ ["ListOptions", "GetOptions", "DeleteOptions", "CreateOptions", "UpdateOptions",
      "PatchOptions"].map v1beta1.SchemeGroupVersion
  ++ ["Status", "APIVersions", "APIGroupList", "APIGroup", "APIResourceList"].map
      (fun kind => { Group := "", Version := "v1", Kind := kind })

/-- The function `v1beta1.AddToScheme` of the networking package: adds the kinds of the
package to the scheme and returns `nil`. -/
def v1beta1.AddToScheme (s : Scheme) : Error × Scheme :=
  (none, s ++ v1beta1.knownTypes ++ v1beta1.metaTypes)

/-! ## The translator (`client.go`) -/

/-- The variable `smiLabels`. -/
def smiLabels : StringMap :=
  [("app.kubernetes.io/managed-by", "istio-smi-controller-sdk"),
   ("app.kubernetes.io/created-by", "istio-smi-controller-sdk")]

/-- The struct `IstioClient`: `once` is the done flag of its `sync.Once`. -/
structure IstioClient where
  once : Bool
deriving DecidableEq

/-- What a method of the interface `Client` leaves behind when it returns: the returned
error, the receiver, the client, and (ghost) the object the method constructed. -/
structure Return (τ σ : Type) where
  err : Error
  ic : τ
  r : client.Client σ
  built : Object

/-- The method `IstioClient.lazyRegisterIstioTypesToScheme`: `once.Do` runs the
registration when the flag is not set, and sets the flag. -/
def IstioClient.lazyRegisterIstioTypesToScheme {σ : Type} (ic : IstioClient)
    (c : client.Client σ) : Except String (IstioClient × client.Client σ) :=
  if ic.once then
    .ok (ic, c)
  else
    match v1beta1.AddToScheme c.scheme with
    | (some err, _) => .error err
    | (none, scheme) =>
      .ok ({ ic with once := true },
           { c with scheme := scheme, log := c.log ++ [Event.AddToScheme] })

/-- The loop of `CreateVirtualService` over `ts.Spec.Backends`, from the empty route list. -/
def CreateVirtualService.route (ts : TrafficSplit) : List HTTPRouteDestination :=
  ts.Spec.Backends.foldl
    (fun route be =>
      let hrd := HTTPRouteDestination.zero
      let hrd := { hrd with Destination := { Host := ts.Spec.Service, Subset := be.Service } }
      let hrd := { hrd with Weight := int32 be.Weight }
      route ++ [hrd])
    []

/-- The method `IstioClient.CreateVirtualService`. -/
def IstioClient.CreateVirtualService {σ : Type} (ic : IstioClient) (r : client.Client σ)
    (ts : TrafficSplit) : Except String (Return IstioClient σ) :=
  match ic.lazyRegisterIstioTypesToScheme r with
  | .error v => .error v
  | .ok (ic, r) =>
    let vs := VirtualService.zero
    let vs := { vs with ObjectMeta := { vs.ObjectMeta with Name := ts.ObjectMeta.Name } }
    let vs := { vs with ObjectMeta := { vs.ObjectMeta with Namespace := ts.ObjectMeta.Namespace } }
    let vs := { vs with ObjectMeta := vs.ObjectMeta.SetLabels smiLabels }
    let vs := { vs with Spec := { vs.Spec with Hosts := [ts.Spec.Service] } }
    let httpRoute : HTTPRoute := { Route := CreateVirtualService.route ts }
    let vs := { vs with Spec := { vs.Spec with Http := [httpRoute] } }
    let res := r.impl.Create r.scheme r.store (.virtualService vs) client.CreateOptions.zero
    .ok { err := res.1, ic := ic, built := .virtualService vs,
          r := { r with store := res.2,
                        log := r.log ++ [Event.Create r.scheme (.virtualService vs)
                                           client.CreateOptions.zero] } }

/-- The method `IstioClient.DeleteVirtualService`. -/
def IstioClient.DeleteVirtualService {σ : Type} (ic : IstioClient) (r : client.Client σ)
    (ts : TrafficSplit) : Except String (Return IstioClient σ) :=
  match ic.lazyRegisterIstioTypesToScheme r with
  | .error v => .error v
  | .ok (ic, r) =>
    let vs := VirtualService.zero
    let vs := { vs with ObjectMeta := { vs.ObjectMeta with Name := ts.ObjectMeta.Name } }
    let vs := { vs with ObjectMeta := { vs.ObjectMeta with Namespace := ts.ObjectMeta.Namespace } }
    let opts := [client.DeleteAllOfOption.MatchingLabels smiLabels]
    let res := r.impl.DeleteAllOf r.scheme r.store (.virtualService vs) opts
    .ok { err := res.1, ic := ic, built := .virtualService vs,
          r := { r with store := res.2,
                        log := r.log ++ [Event.DeleteAllOf r.scheme (.virtualService vs) opts] } }

/-- The call `fmt.Sprintf("cluster.local/ns/%s/sa/%s", namespace, name)`. -/
def Sprintf_principal (ns name : String) : String :=
  "cluster.local/ns/" ++ ns ++ "/sa/" ++ name

/-- The loop of `CreateAuthorizationPolicy` over `tt.Spec.Sources`, from the nil slice. -/
def CreateAuthorizationPolicy.principals (tt : TrafficTarget) : List String :=
  tt.Spec.Sources.foldl
    (fun principals source =>
      if source.Kind ≠ "ServiceAccount" then
        principals
      else
        principals ++ [Sprintf_principal source.Namespace source.Name])
    []

/-- The method `IstioClient.CreateAuthorizationPolicy`. -/
def IstioClient.CreateAuthorizationPolicy {σ : Type} (ic : IstioClient) (r : client.Client σ)
    (tt : TrafficTarget) : Except String (Return IstioClient σ) :=
  match ic.lazyRegisterIstioTypesToScheme r with
  | .error v => .error v
  | .ok (ic, r) =>
    let ap := AuthorizationPolicy.zero
    let ap := { ap with ObjectMeta := { ap.ObjectMeta with Name := tt.ObjectMeta.Name } }
    let ap := { ap with ObjectMeta := { ap.ObjectMeta with Namespace := tt.ObjectMeta.Namespace } }
    let ap := { ap with ObjectMeta := ap.ObjectMeta.SetLabels smiLabels }
    let ap := { ap with Spec := { ap.Spec with Action := .ALLOW } }
    let principals := CreateAuthorizationPolicy.principals tt
    let rule : Rule :=
      { From := [{ Source := { Principals := principals } }],
        To := [{ Operation := Operation.zero }] }
    let ap := { ap with Spec := { ap.Spec with Rules := ap.Spec.Rules ++ [rule] } }
    .ok { err := some "not implemented", ic := ic, built := .authorizationPolicy ap, r := r }

/-- The method `IstioClient.DeleteAuthorizationPolicy`. -/
def IstioClient.DeleteAuthorizationPolicy {σ : Type} (ic : IstioClient) (w : client.Client σ)
    (tt : TrafficTarget) : Except String (Return IstioClient σ) :=
  match ic.lazyRegisterIstioTypesToScheme w with
  | .error v => .error v
  | .ok (ic, w) =>
    let ap := AuthorizationPolicy.zero
    let ap := { ap with ObjectMeta := { ap.ObjectMeta with Name := tt.ObjectMeta.Name } }
    let ap := { ap with ObjectMeta := { ap.ObjectMeta with Namespace := tt.ObjectMeta.Namespace } }
    let opts := [client.DeleteAllOfOption.MatchingLabels smiLabels]
    let res := w.impl.DeleteAllOf w.scheme w.store (.authorizationPolicy ap) opts
    .ok { err := res.1, ic := ic, built := .authorizationPolicy ap,
          r := { w with store := res.2,
                        log := w.log ++ [Event.DeleteAllOf w.scheme (.authorizationPolicy ap) opts] } }

/-- The interface `Client`: a receiver and its four methods. -/
structure Client (τ σ : Type) where
  self : τ
  CreateVirtualService : τ → client.Client σ → TrafficSplit → Except String (Return τ σ)
  DeleteVirtualService : τ → client.Client σ → TrafficSplit → Except String (Return τ σ)
  CreateAuthorizationPolicy : τ → client.Client σ → TrafficTarget → Except String (Return τ σ)
  DeleteAuthorizationPolicy : τ → client.Client σ → TrafficTarget → Except String (Return τ σ)

/-- An `IstioClient` as a value of the interface `Client`. -/
def IstioClient.toClient {σ : Type} (ic : IstioClient) : Client IstioClient σ :=
  { self := ic,
    CreateVirtualService := IstioClient.CreateVirtualService,
    DeleteVirtualService := IstioClient.DeleteVirtualService,
    CreateAuthorizationPolicy := IstioClient.CreateAuthorizationPolicy,
    DeleteAuthorizationPolicy := IstioClient.DeleteAuthorizationPolicy }

/-! ## The dispatcher (`api.go`, `target.go`) -/

/-- The struct `ctrl.Result`. -/
structure ctrl.Result where
  Requeue : Bool
  RequeueAfter : Nat
deriving DecidableEq

/-- The zero value `ctrl.Result{}`. -/
def ctrl.Result.zero : ctrl.Result := { Requeue := false, RequeueAfter := 0 }

/-- The struct `API`. -/
structure API (τ σ : Type) where
  client : Client τ σ

/-- The function `New`. -/
def New {τ σ : Type} (c : Client τ σ) : API τ σ := { client := c }

/-- What a method of `API` leaves behind when it returns: the returned pair
`(ctrl.Result, error)`, the receiver and the client. -/
structure Reconciled (τ σ : Type) where
  result : ctrl.Result
  err : Error
  l : API τ σ
  c : client.Client σ

/-- The method `API.UpsertTrafficTarget`: the value that `CreateAuthorizationPolicy`
returns is not bound to anything. -/
def API.UpsertTrafficTarget {τ σ : Type} (l : API τ σ) (c : client.Client σ)
    (tt : TrafficTarget) : Except String (Reconciled τ σ) :=
  match l.client.CreateAuthorizationPolicy l.client.self c tt with
  | .error v => .error v
  | .ok ret =>
    .ok { result := ctrl.Result.zero, err := none,
          l := { client := { l.client with self := ret.ic } }, c := ret.r }

/-- The method `API.DeleteTrafficTarget`: the value that `DeleteAuthorizationPolicy`
returns is not bound to anything. -/
def API.DeleteTrafficTarget {τ σ : Type} (l : API τ σ) (c : client.Client σ)
    (tt : TrafficTarget) : Except String (Reconciled τ σ) :=
  match l.client.DeleteAuthorizationPolicy l.client.self c tt with
  | .error v => .error v
  | .ok ret =>
    .ok { result := ctrl.Result.zero, err := none,
          l := { client := { l.client with self := ret.ic } }, c := ret.r }

/-! ## Sequences of translator calls on one `IstioClient` -/

/-- One call of a method of the interface `Client`, with its argument. -/
inductive Call where
  | CreateVirtualService (ts : TrafficSplit)
  | DeleteVirtualService (ts : TrafficSplit)
  | CreateAuthorizationPolicy (tt : TrafficTarget)
  | DeleteAuthorizationPolicy (tt : TrafficTarget)
deriving DecidableEq

/-- Make one call on the receiver `ic` with the client `r`. -/
def Call.exec {σ : Type} (ic : IstioClient) (r : client.Client σ) :
    Call → Except String (Return IstioClient σ)
  | .CreateVirtualService ts => ic.CreateVirtualService r ts
  | .DeleteVirtualService ts => ic.DeleteVirtualService r ts
  | .CreateAuthorizationPolicy tt => ic.CreateAuthorizationPolicy r tt
  | .DeleteAuthorizationPolicy tt => ic.DeleteAuthorizationPolicy r tt

/-- Make the calls of a list one after the other, each on the receiver and the client
that the one before left behind; a panic ends the run. -/
def runCalls {σ : Type} (ic : IstioClient) (r : client.Client σ) :
    List Call → Except String (IstioClient × client.Client σ)
  | [] => .ok (ic, r)
  | call :: rest =>
    match call.exec ic r with
    | .error v => .error v
    | .ok ret => runCalls ret.ic ret.r rest

/-- The number of calls of the schema-registration function in a log. -/
def registrations (log : List Event) : Nat := log.countP Event.isRegistration

/-- The calls to the store in a log, in order. -/
def storeCalls (log : List Event) : List Event := log.filter Event.isStoreCall

/-! ## A store model: objects in memory, bulk delete by selector -/

/-- The struct `client.DeleteAllOfOptions`, restricted to the selectors of the model. -/
structure client.DeleteAllOfOptions where
  LabelSelector : Option StringMap
  Namespace : String
deriving DecidableEq

/-- The method `ApplyOptions`: each option writes its field, in order; an empty
`Namespace` means every namespace. Field selectors are not modelled. -/
def client.DeleteAllOfOptions.ApplyOptions (opts : List client.DeleteAllOfOption) :
    client.DeleteAllOfOptions :=
  opts.foldl
    (fun o opt =>
      match opt with
      | .MatchingLabels labels => { o with LabelSelector := some labels }
      | .InNamespace ns => { o with Namespace := ns }
      | .MatchingFields _ => o)
    { LabelSelector := none, Namespace := "" }

/-- Whether a label map has every key/value pair of a selector. -/
def matchesLabels (selector labels : StringMap) : Bool :=
  selector.all (fun kv => labels.contains kv)

/-- Whether a stored object is selected by a bulk delete of the kind of `obj` with the
options `o`. -/
def selectedBy (obj : Object) (o : client.DeleteAllOfOptions) (stored : Object) : Bool :=
  decide (stored.kind = obj.kind)
    && (o.Namespace == "" || stored.meta.Namespace == o.Namespace)
    && (match o.LabelSelector with
        | none => true
        | some selector => matchesLabels selector stored.meta.Labels)

/-- Whether two objects have the same kind, namespace and name. -/
def sameKey (a b : Object) : Bool :=
  decide (a.kind = b.kind) && a.meta.Namespace == b.meta.Namespace && a.meta.Name == b.meta.Name

/-- A store that keeps its objects in a list: create fails with "already exists" on an
object of the same kind, namespace and name; delete fails with "not found" when there is
none; bulk delete removes every object that the selector matches. -/
def memStore : client.Writer (List Object) :=
  { Create := fun _ store obj _ =>
      if store.any (sameKey obj) then (some "already exists", store)
      else (none, store ++ [obj]),
    Delete := fun _ store obj =>
      if store.any (sameKey obj) then (none, store.filter (fun o => !sameKey obj o))
      else (some "not found", store),
    DeleteAllOf := fun _ store obj opts =>
      (none, store.filter
        (fun o => !selectedBy obj (client.DeleteAllOfOptions.ApplyOptions opts) o)) }

/-- A store whose every write fails with the error `e` and changes nothing. -/
def failingStore (e : String) : client.Writer Unit :=
  { Create := fun _ store _ _ => (some e, store),
    Delete := fun _ store _ => (some e, store),
    DeleteAllOf := fun _ store _ _ => (some e, store) }

/-- A fresh `IstioClient`: the zero value, whose `sync.Once` has not run. -/
def IstioClient.fresh : IstioClient := { once := false }

/-- A client over `memStore` with nothing in its scheme, no objects and an empty log. -/
def emptyClient : client.Client (List Object) :=
  { impl := memStore, scheme := [], store := [], log := [] }

/-- The TrafficSplit of the end-to-end example of the specification. -/
def webSplit : TrafficSplit :=
  { ObjectMeta := { Name := "web", Namespace := "demo", Labels := [] },
    Spec := { Service := "web",
              Backends := [{ Service := "v1", Weight := 25 }, { Service := "v2", Weight := 75 }],
              Matches := [] } }

/-- A second TrafficSplit in the namespace of `webSplit`. -/
def apiSplit : TrafficSplit :=
  { ObjectMeta := { Name := "api", Namespace := "demo", Labels := [("team", "core")] },
    Spec := { Service := "api",
              Backends := [{ Service := "stable", Weight := 100 }],
              Matches := [] } }

/-- A TrafficTarget with one ServiceAccount source and one Group source. -/
def webTarget : TrafficTarget :=
  { ObjectMeta := { Name := "web-access", Namespace := "demo", Labels := [] },
    Spec := { Destination := { Kind := "ServiceAccount", Name := "web", Namespace := "demo" },
              Sources := [{ Kind := "ServiceAccount", Name := "frontend", Namespace := "demo" },
                          { Kind := "Group", Name := "admins", Namespace := "demo" }],
              Rules := [] } }

/-- A TrafficSplit whose only backend has weight 2^31, one above the largest `int32`. -/
def bigSplit : TrafficSplit :=
  { ObjectMeta := { Name := "big", Namespace := "demo", Labels := [] },
    Spec := { Service := "big",
              Backends := [{ Service := "v1", Weight := 2147483648 }],
              Matches := [] } }

/-- A TrafficSplit whose only backend has weight 2^32 + 100. -/
def wrapSplit : TrafficSplit :=
  { ObjectMeta := { Name := "wrap", Namespace := "demo", Labels := [] },
    Spec := { Service := "wrap",
              Backends := [{ Service := "v1", Weight := 4294967396 }],
              Matches := [] } }

/-! ## Shared lemmas -/

theorem foldl_append_singleton {α β : Type} (f : α → β) (l : List α) (init : List β) :
    l.foldl (fun acc x => acc ++ [f x]) init = init ++ l.map f := by
  induction l generalizing init with
  | nil => simp
  | cons x xs ih => simp [ih]

theorem route_eq_map (ts : TrafficSplit) :
    CreateVirtualService.route ts = ts.Spec.Backends.map (fun be =>
      { Destination := { Host := ts.Spec.Service, Subset := be.Service },
        Weight := int32 be.Weight }) := by
  unfold CreateVirtualService.route
  simpa [HTTPRouteDestination.zero] using foldl_append_singleton
    (fun be : TrafficSplitBackend =>
      ({ Destination := { Host := ts.Spec.Service, Subset := be.Service },
         Weight := int32 be.Weight } : HTTPRouteDestination))
    ts.Spec.Backends []

theorem int32_eq_self_iff (w : Int) :
    int32 w = w ↔ (-2147483648 ≤ w ∧ w ≤ 2147483647) := by
  unfold int32
  omega

theorem lazyRegister_spec {σ : Type} (ic : IstioClient) (c : client.Client σ) :
    ic.lazyRegisterIstioTypesToScheme c = .ok
      ({ once := true },
       { c with
         scheme := if ic.once then c.scheme else (v1beta1.AddToScheme c.scheme).2,
         log := c.log ++ (if ic.once then [] else [Event.AddToScheme]) }) := by
  unfold IstioClient.lazyRegisterIstioTypesToScheme
  cases h : ic.once
  · simp [v1beta1.AddToScheme]
  · cases ic
    simp at h
    simp [h]

theorem storeCalls_lazyRegister {σ : Type} (ic : IstioClient) (c : client.Client σ) :
    storeCalls (c.log ++ (if ic.once then [] else [Event.AddToScheme])) = storeCalls c.log := by
  cases ic.once <;> simp [storeCalls, Event.isStoreCall]

theorem lazyRegister_storeCalls {σ : Type} (ic ic1 : IstioClient) (c c1 : client.Client σ)
    (h : ic.lazyRegisterIstioTypesToScheme c = .ok (ic1, c1)) (e : Event)
    (he : e.isStoreCall = true) :
    storeCalls (c1.log ++ [e]) = storeCalls c.log ++ [e] := by
  rw [lazyRegister_spec] at h
  cases h
  have := storeCalls_lazyRegister ic c
  simp only [storeCalls, List.filter_append] at this ⊢
  rw [this]
  simp [he]

theorem CreateVirtualService_spec {σ : Type} (ic : IstioClient) (r : client.Client σ)
    (ts : TrafficSplit) :
    ∃ ic1 r1 vs res,
      ic.lazyRegisterIstioTypesToScheme r = .ok (ic1, r1) ∧
      vs = { ObjectMeta := { Name := ts.ObjectMeta.Name, Namespace := ts.ObjectMeta.Namespace,
                             Labels := smiLabels },
             Spec := { Hosts := [ts.Spec.Service],
                       Http := [{ Route := ts.Spec.Backends.map (fun be =>
                         { Destination := { Host := ts.Spec.Service, Subset := be.Service },
                           Weight := int32 be.Weight }) }] } } ∧
      res = r1.impl.Create r1.scheme r1.store (.virtualService vs) client.CreateOptions.zero ∧
      ic.CreateVirtualService r ts = .ok
        { err := res.1, ic := ic1, built := .virtualService vs,
          r := { r1 with store := res.2,
                         log := r1.log ++ [Event.Create r1.scheme (.virtualService vs)
                                             client.CreateOptions.zero] } } := by
  refine ⟨_, _, _, _, lazyRegister_spec ic r, rfl, rfl, ?_⟩
  unfold IstioClient.CreateVirtualService
  rw [lazyRegister_spec, ← route_eq_map]
  rfl

theorem foldl_filter_append {α β : Type} (p : α → Prop) [DecidablePred p] (f : α → β)
    (l : List α) (init : List β) :
    l.foldl (fun acc x => if ¬ p x then acc else acc ++ [f x]) init
      = init ++ (l.filter (fun x => decide (p x))).map f := by
  induction l generalizing init with
  | nil => simp
  | cons x xs ih =>
    rw [List.foldl_cons, ih]
    by_cases h : p x <;> simp [h]

theorem principals_eq (tt : TrafficTarget) :
    CreateAuthorizationPolicy.principals tt =
      (tt.Spec.Sources.filter (fun source => decide (source.Kind = "ServiceAccount"))).map
        (fun source => "cluster.local/ns/" ++ source.Namespace ++ "/sa/" ++ source.Name) := by
  unfold CreateAuthorizationPolicy.principals
  simpa [Sprintf_principal] using foldl_filter_append
    (fun source : IdentityBindingSubject => source.Kind = "ServiceAccount")
    (fun source => "cluster.local/ns/" ++ source.Namespace ++ "/sa/" ++ source.Name)
    tt.Spec.Sources []

theorem CreateAuthorizationPolicy_spec {σ : Type} (ic : IstioClient) (r : client.Client σ)
    (tt : TrafficTarget) :
    ∃ ic1 r1 ap,
      ic.lazyRegisterIstioTypesToScheme r = .ok (ic1, r1) ∧
      ap = { ObjectMeta := { Name := tt.ObjectMeta.Name, Namespace := tt.ObjectMeta.Namespace,
                             Labels := smiLabels },
             Spec := { Action := .ALLOW,
                       Rules := [{ From := [{ Source := { Principals :=
                                     CreateAuthorizationPolicy.principals tt } }],
                                   To := [{ Operation := Operation.zero }] }] } } ∧
      ic.CreateAuthorizationPolicy r tt = .ok
        { err := some "not implemented", ic := ic1, built := .authorizationPolicy ap,
          r := r1 } := by
  refine ⟨_, _, _, lazyRegister_spec ic r, rfl, ?_⟩
  unfold IstioClient.CreateAuthorizationPolicy
  rw [lazyRegister_spec]
  rfl

theorem DeleteVirtualService_spec {σ : Type} (ic : IstioClient) (r : client.Client σ)
    (ts : TrafficSplit) :
    ∃ ic1 r1 vs res,
      ic.lazyRegisterIstioTypesToScheme r = .ok (ic1, r1) ∧
      vs = { ObjectMeta := { Name := ts.ObjectMeta.Name, Namespace := ts.ObjectMeta.Namespace,
                             Labels := [] },
             Spec := { Hosts := [], Http := [] } } ∧
      res = r1.impl.DeleteAllOf r1.scheme r1.store (.virtualService vs)
              [client.DeleteAllOfOption.MatchingLabels smiLabels] ∧
      ic.DeleteVirtualService r ts = .ok
        { err := res.1, ic := ic1, built := .virtualService vs,
          r := { r1 with store := res.2,
                         log := r1.log ++ [Event.DeleteAllOf r1.scheme (.virtualService vs)
                           [client.DeleteAllOfOption.MatchingLabels smiLabels]] } } := by
  refine ⟨_, _, _, _, lazyRegister_spec ic r, rfl, rfl, ?_⟩
  unfold IstioClient.DeleteVirtualService
  rw [lazyRegister_spec]
  rfl

theorem DeleteAuthorizationPolicy_spec {σ : Type} (ic : IstioClient) (w : client.Client σ)
    (tt : TrafficTarget) :
    ∃ ic1 w1 ap res,
      ic.lazyRegisterIstioTypesToScheme w = .ok (ic1, w1) ∧
      ap = { ObjectMeta := { Name := tt.ObjectMeta.Name, Namespace := tt.ObjectMeta.Namespace,
                             Labels := [] },
             Spec := { Action := .ALLOW, Rules := [] } } ∧
      res = w1.impl.DeleteAllOf w1.scheme w1.store (.authorizationPolicy ap)
              [client.DeleteAllOfOption.MatchingLabels smiLabels] ∧
      ic.DeleteAuthorizationPolicy w tt = .ok
        { err := res.1, ic := ic1, built := .authorizationPolicy ap,
          r := { w1 with store := res.2,
                         log := w1.log ++ [Event.DeleteAllOf w1.scheme (.authorizationPolicy ap)
                           [client.DeleteAllOfOption.MatchingLabels smiLabels]] } } := by
  refine ⟨_, _, _, _, lazyRegister_spec ic w, rfl, rfl, ?_⟩
  unfold IstioClient.DeleteAuthorizationPolicy
  rw [lazyRegister_spec]
  rfl

theorem lazyRegister_frame {σ : Type} (ic ic1 : IstioClient) (c c1 : client.Client σ)
    (h : ic.lazyRegisterIstioTypesToScheme c = .ok (ic1, c1)) :
    ic1.once = true ∧ c1.impl = c.impl ∧ c1.store = c.store ∧
      c1.log = c.log ++ (if ic.once then [] else [Event.AddToScheme]) ∧
      c1.scheme = (if ic.once then c.scheme else (v1beta1.AddToScheme c.scheme).2) := by
  rw [lazyRegister_spec] at h
  cases h
  exact ⟨rfl, rfl, rfl, rfl, rfl⟩

theorem matchesLabels_smiLabels : matchesLabels smiLabels smiLabels = true := by decide

theorem applyOptions_matchingLabels (labels : StringMap) :
    client.DeleteAllOfOptions.ApplyOptions [client.DeleteAllOfOption.MatchingLabels labels]
      = { LabelSelector := some labels, Namespace := "" } := rfl

theorem isRegistration_of_isStoreCall (e : Event) (h : e.isStoreCall = true) :
    e.isRegistration = false := by
  cases e <;> simp_all [Event.isStoreCall, Event.isRegistration]

theorem registrations_storeCalls (l : List Event) (h : ∀ e ∈ l, e.isStoreCall = true) :
    registrations l = 0 := by
  unfold registrations
  rw [List.countP_eq_zero]
  intro e he
  simp [isRegistration_of_isStoreCall e (h e he)]

theorem exec_spec {σ : Type} (ic : IstioClient) (r : client.Client σ) (call : Call) :
    ∃ ret writes,
      call.exec ic r = .ok ret ∧ ret.ic.once = true ∧
      ret.r.log = r.log ++ (if ic.once then [] else [Event.AddToScheme]) ++ writes ∧
      ∀ e ∈ writes, e.isStoreCall = true := by
  cases call with
  | CreateVirtualService ts =>
    obtain ⟨ic1, r1, vs, res, h1, _, _, h⟩ := CreateVirtualService_spec ic r ts
    obtain ⟨ho, _, _, hlog, _⟩ := lazyRegister_frame ic ic1 r r1 h1
    refine ⟨_, [Event.Create r1.scheme (.virtualService vs) client.CreateOptions.zero],
      h, ho, ?_, ?_⟩
    · show r1.log ++ _ = _
      rw [hlog]
    · intro e he
      simp at he
      subst he
      rfl
  | DeleteVirtualService ts =>
    obtain ⟨ic1, r1, vs, res, h1, _, _, h⟩ := DeleteVirtualService_spec ic r ts
    obtain ⟨ho, _, _, hlog, _⟩ := lazyRegister_frame ic ic1 r r1 h1
    refine ⟨_, [Event.DeleteAllOf r1.scheme (.virtualService vs)
      [client.DeleteAllOfOption.MatchingLabels smiLabels]], h, ho, ?_, ?_⟩
    · show r1.log ++ _ = _
      rw [hlog]
    · intro e he
      simp at he
      subst he
      rfl
  | CreateAuthorizationPolicy tt =>
    obtain ⟨ic1, r1, ap, h1, _, h⟩ := CreateAuthorizationPolicy_spec ic r tt
    obtain ⟨ho, _, _, hlog, _⟩ := lazyRegister_frame ic ic1 r r1 h1
    refine ⟨_, [], h, ho, ?_, ?_⟩
    · show r1.log = _
      rw [hlog, List.append_nil]
    · intro e he
      simp at he
  | DeleteAuthorizationPolicy tt =>
    obtain ⟨ic1, r1, ap, res, h1, _, _, h⟩ := DeleteAuthorizationPolicy_spec ic r tt
    obtain ⟨ho, _, _, hlog, _⟩ := lazyRegister_frame ic ic1 r r1 h1
    refine ⟨_, [Event.DeleteAllOf r1.scheme (.authorizationPolicy ap)
      [client.DeleteAllOfOption.MatchingLabels smiLabels]], h, ho, ?_, ?_⟩
    · show r1.log ++ _ = _
      rw [hlog]
    · intro e he
      simp at he
      subst he
      rfl

theorem runCalls_latched {σ : Type} (calls : List Call) (ic : IstioClient)
    (r : client.Client σ) (h : ic.once = true) :
    ∃ fin later,
      runCalls ic r calls = .ok fin ∧ fin.2.log = r.log ++ later ∧
      ∀ e ∈ later, e.isStoreCall = true := by
  induction calls generalizing ic r with
  | nil => exact ⟨(ic, r), [], rfl, by simp, by simp⟩
  | cons call rest ih =>
    obtain ⟨ret, writes, hret, ho, hlog, hw⟩ := exec_spec ic r call
    obtain ⟨fin, later, hfin, hl, hs⟩ := ih ret.ic ret.r ho
    refine ⟨fin, writes ++ later, ?_, ?_, ?_⟩
    · simp only [runCalls, hret]
      exact hfin
    · rw [hl, hlog, h]
      simp
    · intro e he
      rcases List.mem_append.1 he with he | he
      · exact hw e he
      · exact hs e he

theorem AuthorizationPolicyKind_not_mem_AddToScheme (s : Scheme)
    (h : AuthorizationPolicyKind ∉ s) :
    AuthorizationPolicyKind ∉ (v1beta1.AddToScheme s).2 := by
  unfold v1beta1.AddToScheme
  intro hmem
  rcases List.mem_append.1 hmem with hmem | hmem
  · rcases List.mem_append.1 hmem with hmem | hmem
    · exact h hmem
    · exact absurd hmem (by decide)
  · exact absurd hmem (by decide)

theorem VirtualServiceKind_mem_AddToScheme (s : Scheme) :
    VirtualServiceKind ∈ (v1beta1.AddToScheme s).2 := by
  unfold v1beta1.AddToScheme
  apply List.mem_append_left
  apply List.mem_append_right
  decide

/-! ## C1, C8: the VirtualService handed to the store -/

/-- C1 (amended). For every TrafficSplit with name n, namespace ns, service s and backends
b_1..b_N, the one store call of `CreateVirtualService` is a Create of a VirtualService with
name n, namespace ns, hosts exactly [s] and exactly one HTTP route whose destination list
has length N, the i-th destination having host s, subset b_i.service and weight
int32(b_i.weight), in backend order; the weight is b_i.weight itself when every backend
weight lies in the signed 32-bit range. -/
theorem C1_createVirtualService_object {σ : Type} (ic : IstioClient) (r : client.Client σ)
    (ts : TrafficSplit) :
    ∃ ret ic1 r1 vs route,
      ic.lazyRegisterIstioTypesToScheme r = .ok (ic1, r1) ∧
      ic.CreateVirtualService r ts = .ok ret ∧
      storeCalls ret.r.log = storeCalls r.log ++
        [Event.Create r1.scheme (.virtualService vs) client.CreateOptions.zero] ∧
      vs.ObjectMeta.Name = ts.ObjectMeta.Name ∧
      vs.ObjectMeta.Namespace = ts.ObjectMeta.Namespace ∧
      vs.Spec.Hosts = [ts.Spec.Service] ∧
      vs.Spec.Http = [route] ∧
      route.Route.length = ts.Spec.Backends.length ∧
      route.Route = ts.Spec.Backends.map (fun be =>
        { Destination := { Host := ts.Spec.Service, Subset := be.Service },
          Weight := int32 be.Weight }) ∧
      ((∀ be ∈ ts.Spec.Backends, -2147483648 ≤ be.Weight ∧ be.Weight ≤ 2147483647) →
        route.Route = ts.Spec.Backends.map (fun be =>
          { Destination := { Host := ts.Spec.Service, Subset := be.Service },
            Weight := be.Weight })) := by
  obtain ⟨ic1, r1, vs, res, h1, hvs, _, h2⟩ := CreateVirtualService_spec ic r ts
  refine ⟨_, ic1, r1, vs, ⟨ts.Spec.Backends.map (fun be =>
        { Destination := { Host := ts.Spec.Service, Subset := be.Service },
          Weight := int32 be.Weight })⟩, h1, h2, ?_, ?_, ?_, ?_, ?_, ?_, rfl, ?_⟩
  · exact lazyRegister_storeCalls ic ic1 r r1 h1 _ rfl
  · rw [hvs]
  · rw [hvs]
  · rw [hvs]
  · rw [hvs]
  · simp
  · intro hrange
    apply List.map_congr_left
    intro be hbe
    rw [(int32_eq_self_iff be.Weight).2 (hrange be hbe)]

/-- C1 (witness): the end-to-end example. Service "web" with backends (v1,25), (v2,75)
gives hosts ["web"] and destinations (web,v1,25), (web,v2,75). -/
theorem C1_createVirtualService_object_witness :
    (∀ be ∈ webSplit.Spec.Backends, -2147483648 ≤ be.Weight ∧ be.Weight ≤ 2147483647) ∧
    ∃ ret scheme vs route,
      IstioClient.fresh.CreateVirtualService emptyClient webSplit = .ok ret ∧
      storeCalls ret.r.log =
        [Event.Create scheme (.virtualService vs) client.CreateOptions.zero] ∧
      vs.ObjectMeta.Name = "web" ∧ vs.ObjectMeta.Namespace = "demo" ∧
      vs.Spec.Hosts = ["web"] ∧ vs.Spec.Http = [route] ∧
      route.Route =
        [{ Destination := { Host := "web", Subset := "v1" }, Weight := 25 },
         { Destination := { Host := "web", Subset := "v2" }, Weight := 75 }] := by
  have hrange : ∀ be ∈ webSplit.Spec.Backends,
      -2147483648 ≤ be.Weight ∧ be.Weight ≤ 2147483647 := by decide
  obtain ⟨ret, _, r1, vs, route, _, hret, hlog, hn, hns, hh, hr, _, _, himp⟩ :=
    C1_createVirtualService_object IstioClient.fresh emptyClient webSplit
  exact ⟨hrange, ret, r1.scheme, vs, route, hret, hlog, hn, hns, hh, hr, himp hrange⟩

/-- C1 (counterexample). For the TrafficSplit `bigSplit`, whose backend has weight
2147483648, the destination list handed to Create is not the list with weight
b_i.weight: its weight is -2147483648. -/
theorem C1_counterexample :
    ∃ ret scheme vs route,
      IstioClient.fresh.CreateVirtualService emptyClient bigSplit = .ok ret ∧
      storeCalls ret.r.log =
        [Event.Create scheme (.virtualService vs) client.CreateOptions.zero] ∧
      vs.Spec.Http = [route] ∧
      route.Route = [{ Destination := { Host := "big", Subset := "v1" },
                       Weight := -2147483648 }] ∧
      route.Route ≠ bigSplit.Spec.Backends.map (fun be =>
        { Destination := { Host := bigSplit.Spec.Service, Subset := be.Service },
          Weight := be.Weight }) := by
  obtain ⟨ic1, r1, vs, res, h1, hvs, _, h2⟩ :=
    CreateVirtualService_spec IstioClient.fresh emptyClient bigSplit
  refine ⟨_, r1.scheme, vs, ⟨[⟨⟨"big", "v1"⟩, -2147483648⟩]⟩, h2, ?_, ?_, rfl, by decide⟩
  · exact lazyRegister_storeCalls _ ic1 emptyClient r1 h1 _ rfl
  · rw [hvs]
    decide

/-- C8 (amended). For every TrafficSplit, the i-th destination of the VirtualService
handed to Create has weight int32(w_i), the backend weight w_i wrapped to 32 bits in
twos-complement; it equals w_i exactly when -2^31 <= w_i <= 2^31 - 1, so negative
weights, zero and weights above 100 in that range pass through unchanged. -/
theorem C8_weight_is_int32_of_backend_weight {σ : Type} (ic : IstioClient)
    (r : client.Client σ) (ts : TrafficSplit) :
    ∃ ret ic1 r1 vs route,
      ic.lazyRegisterIstioTypesToScheme r = .ok (ic1, r1) ∧
      ic.CreateVirtualService r ts = .ok ret ∧
      storeCalls ret.r.log = storeCalls r.log ++
        [Event.Create r1.scheme (.virtualService vs) client.CreateOptions.zero] ∧
      vs.Spec.Http = [route] ∧
      List.Forall₂
        (fun d be => d.Weight = int32 be.Weight ∧
          (d.Weight = be.Weight ↔ (-2147483648 ≤ be.Weight ∧ be.Weight ≤ 2147483647)))
        route.Route ts.Spec.Backends := by
  obtain ⟨ic1, r1, vs, res, h1, hvs, _, h2⟩ := CreateVirtualService_spec ic r ts
  refine ⟨_, ic1, r1, vs, ⟨ts.Spec.Backends.map (fun be =>
        { Destination := { Host := ts.Spec.Service, Subset := be.Service },
          Weight := int32 be.Weight })⟩, h1, h2, ?_, ?_, ?_⟩
  · exact lazyRegister_storeCalls ic ic1 r r1 h1 _ rfl
  · rw [hvs]
  · rw [List.forall₂_map_left_iff]
    apply List.forall₂_same.2
    intro be _
    exact ⟨rfl, int32_eq_self_iff be.Weight⟩

/-- C8 (counterexample). For the TrafficSplit `wrapSplit`, whose backend has weight
4294967396 (a Go int outside the signed 32-bit range), the destination handed to Create
has weight 100. -/
theorem C8_counterexample :
    ∃ ret scheme vs route d,
      IstioClient.fresh.CreateVirtualService emptyClient wrapSplit = .ok ret ∧
      storeCalls ret.r.log =
        [Event.Create scheme (.virtualService vs) client.CreateOptions.zero] ∧
      vs.Spec.Http = [route] ∧ route.Route = [d] ∧
      wrapSplit.Spec.Backends.map (fun be => be.Weight) = [4294967396] ∧
      d.Weight = 100 ∧ d.Weight ≠ 4294967396 := by
  obtain ⟨ic1, r1, vs, res, h1, hvs, _, h2⟩ :=
    CreateVirtualService_spec IstioClient.fresh emptyClient wrapSplit
  refine ⟨_, r1.scheme, vs, ⟨[⟨⟨"wrap", "v1"⟩, 100⟩]⟩, _, h2, ?_, ?_, rfl, by decide, rfl, by decide⟩
  · exact lazyRegister_storeCalls _ ic1 emptyClient r1 h1 _ rfl
  · rw [hvs]
    decide

/-! ## C2, C4, C5: the AuthorizationPolicy and the ownership labels -/

/-- C2. For every TrafficTarget, the AuthorizationPolicy that `CreateAuthorizationPolicy`
builds has exactly one rule with exactly one from clause (and one unrestricted to clause),
and the principals of the clause are, in source order, the sources of kind "ServiceAccount"
mapped to "cluster.local/ns/" ++ namespace ++ "/sa/" ++ name; so there are as many
principals as ServiceAccount sources. -/
theorem C2_authorizationPolicy_principals {σ : Type} (ic : IstioClient)
    (r : client.Client σ) (tt : TrafficTarget) :
    ∃ ret ap rule clause,
      ic.CreateAuthorizationPolicy r tt = .ok ret ∧
      ret.built = .authorizationPolicy ap ∧
      ap.Spec.Action = .ALLOW ∧
      ap.Spec.Rules = [rule] ∧
      rule.From = [clause] ∧
      rule.To = [{ Operation := Operation.zero }] ∧
      clause.Source.Principals =
        (tt.Spec.Sources.filter (fun source => decide (source.Kind = "ServiceAccount"))).map
          (fun source => "cluster.local/ns/" ++ source.Namespace ++ "/sa/" ++ source.Name) ∧
      clause.Source.Principals.length =
        tt.Spec.Sources.countP (fun source => decide (source.Kind = "ServiceAccount")) := by
  obtain ⟨ic1, r1, ap, _, hap, h⟩ := CreateAuthorizationPolicy_spec ic r tt
  refine ⟨_, ap, { From := [{ Source := { Principals :=
      CreateAuthorizationPolicy.principals tt } }], To := [{ Operation := Operation.zero }] },
    { Source := { Principals := CreateAuthorizationPolicy.principals tt } },
    h, rfl, ?_, ?_, rfl, rfl, principals_eq tt, ?_⟩
  · rw [hap]
  · rw [hap]
  · show (CreateAuthorizationPolicy.principals tt).length = _
    rw [principals_eq, List.length_map, List.countP_eq_length_filter]

/-- C4. For every TrafficTarget and every client, `CreateAuthorizationPolicy` returns the
non-nil error "not implemented" and makes no create, delete or bulk-delete call: the
store is unchanged and the only event it can add to the log is the schema registration. -/
theorem C4_createAuthorizationPolicy_not_implemented {σ : Type} (ic : IstioClient)
    (r : client.Client σ) (tt : TrafficTarget) :
    ∃ ret,
      ic.CreateAuthorizationPolicy r tt = .ok ret ∧
      ret.err = some "not implemented" ∧
      ret.r.store = r.store ∧
      ret.r.log = r.log ++ (if ic.once then [] else [Event.AddToScheme]) ∧
      storeCalls ret.r.log = storeCalls r.log := by
  obtain ⟨ic1, r1, ap, h1, _, h⟩ := CreateAuthorizationPolicy_spec ic r tt
  obtain ⟨_, _, hstore, hlog, _⟩ := lazyRegister_frame ic ic1 r r1 h1
  refine ⟨_, h, rfl, hstore, hlog, ?_⟩
  show storeCalls r1.log = _
  rw [hlog]
  exact storeCalls_lazyRegister ic r

/-- C5. For every TrafficSplit and every TrafficTarget, the VirtualService that
`CreateVirtualService` hands to Create and the AuthorizationPolicy that
`CreateAuthorizationPolicy` builds carry the same label map, `smiLabels`, which is exactly
the two entries "app.kubernetes.io/managed-by" and "app.kubernetes.io/created-by", both
with value "istio-smi-controller-sdk", whatever the source object is. -/
theorem C5_ownership_labels {σ ρ : Type} (ic ic2 : IstioClient) (r : client.Client σ)
    (r2 : client.Client ρ) (ts : TrafficSplit) (tt : TrafficTarget) :
    ∃ ret scheme vs ret2 ap,
      ic.CreateVirtualService r ts = .ok ret ∧
      storeCalls ret.r.log = storeCalls r.log ++
        [Event.Create scheme (.virtualService vs) client.CreateOptions.zero] ∧
      ic2.CreateAuthorizationPolicy r2 tt = .ok ret2 ∧
      ret2.built = .authorizationPolicy ap ∧
      vs.ObjectMeta.Labels = ap.ObjectMeta.Labels ∧
      vs.ObjectMeta.Labels = smiLabels ∧
      smiLabels = [("app.kubernetes.io/managed-by", "istio-smi-controller-sdk"),
                   ("app.kubernetes.io/created-by", "istio-smi-controller-sdk")] ∧
      smiLabels.length = 2 ∧
      (smiLabels.map Prod.fst).Nodup := by
  obtain ⟨ic1, r1, vs, res, h1, hvs, _, h⟩ := CreateVirtualService_spec ic r ts
  obtain ⟨ic3, r3, ap, _, hap, h2⟩ := CreateAuthorizationPolicy_spec ic2 r2 tt
  refine ⟨_, r1.scheme, vs, _, ap, h, ?_, h2, rfl, ?_, ?_, rfl, rfl, by decide⟩
  · exact lazyRegister_storeCalls ic ic1 r r1 h1 _ rfl
  · rw [hvs, hap]
  · rw [hvs]

/-! ## C3: the bulk delete and its selector -/

/-- C3. For every TrafficSplit and every TrafficTarget, `DeleteVirtualService` and
`DeleteAuthorizationPolicy` each make exactly one store call, a bulk delete whose only
option is the label selector `smiLabels`, whatever the source object; over the store
model `memStore`, whose bulk delete removes every object of the kind that the selector
matches, no VirtualService that `CreateVirtualService` hands to Create for any
TrafficSplit is left after one `DeleteVirtualService`, and in the run that creates the
VirtualServices of the two TrafficSplits "web" and "api" of namespace "demo" one
delete call empties the store. -/
theorem C3_delete_by_ownership_labels {σ ρ : Type} (ic ic2 : IstioClient)
    (r : client.Client σ) (r2 : client.Client σ) (ts : TrafficSplit) (tt : TrafficTarget) :
    (∃ ret ic1 r1 vs,
      ic.lazyRegisterIstioTypesToScheme r = .ok (ic1, r1) ∧
      ic.DeleteVirtualService r ts = .ok ret ∧
      storeCalls ret.r.log = storeCalls r.log ++
        [Event.DeleteAllOf r1.scheme (.virtualService vs)
          [client.DeleteAllOfOption.MatchingLabels smiLabels]]) ∧
    (∃ ret ic1 r1 ap,
      ic2.lazyRegisterIstioTypesToScheme r2 = .ok (ic1, r1) ∧
      ic2.DeleteAuthorizationPolicy r2 tt = .ok ret ∧
      storeCalls ret.r.log = storeCalls r2.log ++
        [Event.DeleteAllOf r1.scheme (.authorizationPolicy ap)
          [client.DeleteAllOfOption.MatchingLabels smiLabels]]) ∧
    (∀ (scheme : Scheme) (store : List Object) (log : List Event),
      ∃ ret,
        ic.DeleteVirtualService
          { impl := memStore, scheme := scheme, store := store, log := log } ts = .ok ret ∧
        ret.err = none ∧
        ret.r.store = store.filter (fun o =>
          !(decide (o.kind = VirtualServiceKind) && matchesLabels smiLabels o.meta.Labels)) ∧
        ∀ (ic3 : IstioClient) (r3 : client.Client ρ) (ts3 : TrafficSplit)
          (ret3 : Return IstioClient ρ),
          ic3.CreateVirtualService r3 ts3 = .ok ret3 → ret3.built ∉ ret.r.store) ∧
    ((runCalls IstioClient.fresh emptyClient
        [.CreateVirtualService webSplit, .CreateVirtualService apiSplit]).toOption.map
        (fun fin => fin.2.store.map (fun o => (o.kind, o.meta.Namespace, o.meta.Name)))
      = some [(VirtualServiceKind, "demo", "web"), (VirtualServiceKind, "demo", "api")]) ∧
    ((runCalls IstioClient.fresh emptyClient
        [.CreateVirtualService webSplit, .CreateVirtualService apiSplit,
         .DeleteVirtualService webSplit]).toOption.map (fun fin => fin.2.store)
      = some []) := by
  refine ⟨?_, ?_, ?_, by decide, by decide⟩
  · obtain ⟨ic1, r1, vs, res, h1, _, _, h⟩ := DeleteVirtualService_spec ic r ts
    exact ⟨_, ic1, r1, vs, h1, h, lazyRegister_storeCalls ic ic1 r r1 h1 _ rfl⟩
  · obtain ⟨ic1, r1, ap, res, h1, _, _, h⟩ := DeleteAuthorizationPolicy_spec ic2 r2 tt
    exact ⟨_, ic1, r1, ap, h1, h, lazyRegister_storeCalls ic2 ic1 r2 r1 h1 _ rfl⟩
  · intro scheme store log
    obtain ⟨ic1, r1, vs, res, h1, hvs, hres, h⟩ := DeleteVirtualService_spec ic
      { impl := memStore, scheme := scheme, store := store, log := log } ts
    obtain ⟨_, himpl, hstore, _, _⟩ := lazyRegister_frame _ _ _ _ h1
    have hres2 : res = (none, store.filter (fun o =>
        !(decide (o.kind = VirtualServiceKind) && matchesLabels smiLabels o.meta.Labels))) := by
      rw [hres, himpl, hstore]
      simp [memStore, applyOptions_matchingLabels, selectedBy, Object.kind]
    refine ⟨_, h, ?_, ?_, ?_⟩
    · show res.1 = none
      rw [hres2]
    · show res.2 = _
      rw [hres2]
    · intro ic3 r3 ts3 ret3 h3
      obtain ⟨ic4, r4, vs3, res3, _, hvs3, _, h4⟩ := CreateVirtualService_spec ic3 r3 ts3
      rw [h4] at h3
      cases h3
      show Object.virtualService vs3 ∉ res.2
      rw [hres2, hvs3]
      simp [List.mem_filter, Object.kind, Object.meta, matchesLabels_smiLabels]

/-! ## C6: the result of `CreateVirtualService` -/

/-- C6. For every TrafficSplit and every client, `CreateVirtualService` makes exactly one
store call, a Create, and returns the error of that call unchanged: nil exactly when Create
returned nil, and the same error e when Create returned e; the store it leaves is the
one Create left. With `memStore`, a second create of the same TrafficSplit returns the
"already exists" of the store. -/
theorem C6_createVirtualService_propagates {σ : Type} (ic : IstioClient)
    (r : client.Client σ) (ts : TrafficSplit) :
    (∃ ret ic1 r1 obj,
      ic.lazyRegisterIstioTypesToScheme r = .ok (ic1, r1) ∧
      r1.impl = r.impl ∧ r1.store = r.store ∧
      ic.CreateVirtualService r ts = .ok ret ∧
      storeCalls ret.r.log = storeCalls r.log ++
        [Event.Create r1.scheme obj client.CreateOptions.zero] ∧
      ret.err = (r.impl.Create r1.scheme r.store obj client.CreateOptions.zero).1 ∧
      ret.r.store = (r.impl.Create r1.scheme r.store obj client.CreateOptions.zero).2 ∧
      (ret.err = none ↔
        (r.impl.Create r1.scheme r.store obj client.CreateOptions.zero).1 = none) ∧
      (∀ e, (r.impl.Create r1.scheme r.store obj client.CreateOptions.zero).1 = some e →
        ret.err = some e)) ∧
    ((IstioClient.fresh.CreateVirtualService emptyClient webSplit).toOption.map
        (fun ret => ret.err) = some none) ∧
    (((IstioClient.fresh.CreateVirtualService emptyClient webSplit).toOption.bind
        (fun ret => (ret.ic.CreateVirtualService ret.r webSplit).toOption)).map
        (fun ret => (ret.err, ret.r.store.length)) = some (some "already exists", 1)) := by
  refine ⟨?_, by decide, by decide⟩
  obtain ⟨ic1, r1, vs, res, h1, _, hres, h⟩ := CreateVirtualService_spec ic r ts
  obtain ⟨_, himpl, hstore, _, _⟩ := lazyRegister_frame ic ic1 r r1 h1
  rw [himpl, hstore] at hres
  refine ⟨_, ic1, r1, .virtualService vs, h1, himpl, hstore, h,
    lazyRegister_storeCalls ic ic1 r r1 h1 _ rfl, ?_, ?_, ?_, ?_⟩
  · show res.1 = _
    rw [hres]
  · show res.2 = _
    rw [hres]
  · show res.1 = none ↔ _
    rw [hres]
  · intro e he
    show res.1 = some e
    rw [hres]
    exact he

/-! ## C7: the dispatcher -/

/-- C7 (code at the failing input). For every `IstioClient`, client and TrafficTarget,
`CreateAuthorizationPolicy` returns "not implemented" and `UpsertTrafficTarget` on that
client returns a nil error; `DeleteAuthorizationPolicy` returns the error of the bulk
delete and `DeleteTrafficTarget` returns a nil error. For every implementation of the
interface `Client`, whatever error its method returns, the dispatcher method returns
nil. Over a store whose bulk delete fails with "not found", `DeleteAuthorizationPolicy`
on `webTarget` returns "not found" and `DeleteTrafficTarget` returns nil. -/
theorem C7_dispatcher_drops_translator_error {σ : Type} (ic : IstioClient)
    (c : client.Client σ) (tt : TrafficTarget) :
    (∃ ret out,
      ic.CreateAuthorizationPolicy c tt = .ok ret ∧
      ret.err = some "not implemented" ∧
      (New ic.toClient).UpsertTrafficTarget c tt = .ok out ∧
      out.err = none ∧ out.result = ctrl.Result.zero) ∧
    (∃ ret out ic1 c1 obj,
      ic.lazyRegisterIstioTypesToScheme c = .ok (ic1, c1) ∧
      ic.DeleteAuthorizationPolicy c tt = .ok ret ∧
      ret.err = (c.impl.DeleteAllOf c1.scheme c.store obj
        [client.DeleteAllOfOption.MatchingLabels smiLabels]).1 ∧
      (New ic.toClient).DeleteTrafficTarget c tt = .ok out ∧
      out.err = none ∧ out.result = ctrl.Result.zero) ∧
    (∀ (τ : Type) (l : API τ σ) (ret : Return τ σ),
      (l.client.CreateAuthorizationPolicy l.client.self c tt = .ok ret →
        ∃ out, l.UpsertTrafficTarget c tt = .ok out ∧ out.err = none) ∧
      (l.client.DeleteAuthorizationPolicy l.client.self c tt = .ok ret →
        ∃ out, l.DeleteTrafficTarget c tt = .ok out ∧ out.err = none)) ∧
    ((IstioClient.fresh.CreateAuthorizationPolicy emptyClient webTarget).toOption.map
        (fun ret => ret.err) = some (some "not implemented")) ∧
    (((New IstioClient.fresh.toClient).UpsertTrafficTarget emptyClient webTarget).toOption.map
        (fun out => out.err) = some none) ∧
    ((IstioClient.fresh.DeleteAuthorizationPolicy
        { impl := failingStore "not found", scheme := [], store := (), log := [] }
        webTarget).toOption.map (fun ret => ret.err) = some (some "not found")) ∧
    (((New IstioClient.fresh.toClient).DeleteTrafficTarget
        { impl := failingStore "not found", scheme := [], store := (), log := [] }
        webTarget).toOption.map (fun out => out.err) = some none) := by
  refine ⟨?_, ?_, ?_, by decide, by decide, by decide, by decide⟩
  · obtain ⟨ic1, r1, ap, _, _, h⟩ := CreateAuthorizationPolicy_spec ic c tt
    refine ⟨_, { result := ctrl.Result.zero, err := none,
                 l := { client := { (ic.toClient : Client IstioClient σ) with self := ic1 } },
                 c := r1 }, h, rfl, ?_, rfl, rfl⟩
    simp only [API.UpsertTrafficTarget, New, IstioClient.toClient, h]
  · obtain ⟨ic1, r1, ap, res, h1, _, hres, h⟩ := DeleteAuthorizationPolicy_spec ic c tt
    obtain ⟨_, himpl, hstore, _, _⟩ := lazyRegister_frame ic ic1 c r1 h1
    rw [himpl, hstore] at hres
    refine ⟨_, { result := ctrl.Result.zero, err := none,
                 l := { client := { (ic.toClient : Client IstioClient σ) with self := ic1 } },
                 c := { r1 with
                   store := res.2,
                   log := r1.log ++ [Event.DeleteAllOf r1.scheme (.authorizationPolicy ap)
                     [client.DeleteAllOfOption.MatchingLabels smiLabels]] } },
      ic1, r1, .authorizationPolicy ap, h1, h, ?_, ?_, rfl, rfl⟩
    · show res.1 = _
      rw [hres]
    · simp only [API.DeleteTrafficTarget, New, IstioClient.toClient, h]
  · intro τ l ret
    constructor
    · intro h
      exact ⟨_, by simp only [API.UpsertTrafficTarget, h]; rfl, rfl⟩
    · intro h
      exact ⟨_, by simp only [API.DeleteTrafficTarget, h]; rfl, rfl⟩

/-! ## C9, C10: the registration latch and the scheme -/

/-- C9. From a fresh `IstioClient`, the empty sequence of calls registers nothing, and in
every sequence `call :: rest` of calls of the four methods the schema-registration
function runs exactly once: the first call adds the registration to the log before any
store call of its own, and the later calls add store calls only. -/
theorem C9_registration_exactly_once {σ : Type} (r : client.Client σ) :
    runCalls IstioClient.fresh r [] = .ok (IstioClient.fresh, r) ∧
    ∀ (call : Call) (rest : List Call),
      ∃ ret fin writes later,
        call.exec IstioClient.fresh r = .ok ret ∧
        runCalls IstioClient.fresh r (call :: rest) = .ok fin ∧
        ret.r.log = r.log ++ Event.AddToScheme :: writes ∧
        fin.2.log = ret.r.log ++ later ∧
        (∀ e ∈ writes, e.isStoreCall = true ∧ e.isRegistration = false) ∧
        (∀ e ∈ later, e.isStoreCall = true ∧ e.isRegistration = false) ∧
        registrations ret.r.log = registrations r.log + 1 ∧
        registrations fin.2.log = registrations r.log + 1 := by
  refine ⟨rfl, ?_⟩
  intro call rest
  obtain ⟨ret, writes, hret, ho, hlog, hw⟩ := exec_spec IstioClient.fresh r call
  obtain ⟨fin, later, hfin, hl, hs⟩ := runCalls_latched rest ret.ic ret.r ho
  have hlog2 : ret.r.log = r.log ++ Event.AddToScheme :: writes := by
    rw [hlog]
    simp [IstioClient.fresh]
  have hreg : registrations ret.r.log = registrations r.log + 1 := by
    rw [hlog2]
    have := registrations_storeCalls writes hw
    simp only [registrations] at this ⊢
    simp [List.countP_append, List.countP_cons, this, Event.isRegistration]
  refine ⟨ret, fin, writes, later, hret, ?_, hlog2, hl, ?_, ?_, hreg, ?_⟩
  · simp only [runCalls, hret]
    exact hfin
  · exact fun e he => ⟨hw e he, isRegistration_of_isStoreCall e (hw e he)⟩
  · exact fun e he => ⟨hs e he, isRegistration_of_isStoreCall e (hs e he)⟩
  · rw [hl]
    have := registrations_storeCalls later hs
    simp only [registrations] at this hreg ⊢
    rw [List.countP_append, this, hreg]

/-- C10 (code at the failing input). On a fresh `IstioClient` and a client whose scheme
does not know the AuthorizationPolicy kind, `DeleteAuthorizationPolicy` runs the
registration, which adds the VirtualService kind, and then makes its bulk delete with an
AuthorizationPolicy object whose kind is not in the scheme at the call. -/
theorem C10_deleteAuthorizationPolicy_kind_unregistered {σ : Type} (w : client.Client σ)
    (tt : TrafficTarget) (h : AuthorizationPolicyKind ∉ w.scheme) :
    ∃ ret scheme obj,
      IstioClient.fresh.DeleteAuthorizationPolicy w tt = .ok ret ∧
      ret.r.log = w.log ++ [Event.AddToScheme,
        Event.DeleteAllOf scheme obj [client.DeleteAllOfOption.MatchingLabels smiLabels]] ∧
      obj.kind = AuthorizationPolicyKind ∧
      obj.kind ∉ scheme ∧
      VirtualServiceKind ∈ scheme ∧
      ret.r.scheme = scheme := by
  obtain ⟨ic1, w1, ap, res, h1, _, _, hret⟩ :=
    DeleteAuthorizationPolicy_spec IstioClient.fresh w tt
  obtain ⟨_, _, _, hlog, hscheme⟩ := lazyRegister_frame _ _ _ _ h1
  simp only [IstioClient.fresh, Bool.false_eq_true, if_false] at hlog hscheme
  refine ⟨_, w1.scheme, .authorizationPolicy ap, hret, ?_, rfl, ?_, ?_, rfl⟩
  · show w1.log ++ _ = _
    rw [hlog]
    simp
  · rw [hscheme]
    exact AuthorizationPolicyKind_not_mem_AddToScheme w.scheme h
  · rw [hscheme]
    exact VirtualServiceKind_mem_AddToScheme w.scheme

/-- C10 (witness): the client `emptyClient`, whose scheme is empty, and `webTarget`. -/
theorem C10_deleteAuthorizationPolicy_kind_unregistered_witness :
    AuthorizationPolicyKind ∉ emptyClient.scheme ∧
    ∃ ret scheme obj,
      IstioClient.fresh.DeleteAuthorizationPolicy emptyClient webTarget = .ok ret ∧
      ret.r.log = emptyClient.log ++ [Event.AddToScheme,
        Event.DeleteAllOf scheme obj [client.DeleteAllOfOption.MatchingLabels smiLabels]] ∧
      obj.kind = AuthorizationPolicyKind ∧
      obj.kind ∉ scheme ∧
      VirtualServiceKind ∈ scheme ∧
      ret.r.scheme = scheme :=
  ⟨by decide, C10_deleteAuthorizationPolicy_kind_unregistered emptyClient webTarget (by decide)⟩

end istio
